import Mathlib

/-!
Verification of the conversational slot-filling core of the farmer WhatsApp
backend (github.com/mamadbah2/farmer), shallowly embedded in Lean 4.

Embedding conventions:
- Go pointer-typed struct fields (`*int`, `*float64`, `*string`, `*bool`)
  become `Option` fields; Go `nil` is `none`.
- Go `float64` payloads are modelled as `ℚ`; no floating-point arithmetic is
  performed by the code under verification, the values are only moved around.
- Go strings are modelled as Lean `String` / `List Char`; the byte indices of
  Go's `strings.Index` family coincide with character indices on the data the
  sanitizer handles.
- `time.Time` record fields filled from `time.Now()` are omitted from the
  record embeddings: they are read from the clock, not from the state.
- Fallible operations return `Option` / `Except`; external collaborators
  (the Anthropic HTTP call outcome, the record persistence layer) are
  supplied as explicit oracle values.
-/

namespace Farmer

/-- Embeds `Message` from pkg/clients/anthropic/anthropic.go. -/
structure Message where
  Role : String
  Content : String
deriving DecidableEq, Repr

/-- Embeds `ConversationState` from pkg/clients/anthropic/anthropic.go
(the revision with seller and expense fields).  `Notes` is a plain Go
string whose empty value plays the role of null. -/
structure ConversationState where
  Step : String
  EggsBand1 : Option Int
  EggsBand2 : Option Int
  EggsBand3 : Option Int
  SalesQty : Option Int
  MortalityBand1 : Option Int
  MortalityBand2 : Option Int
  MortalityBand3 : Option Int
  FeedReceived : Option Bool
  FeedQty : Option ℚ
  Notes : String
  SaleQty : Option Int
  SalePrice : Option ℚ
  SaleClient : Option String
  SalePaid : Option ℚ
  ReceptionQty : Option Int
  ReceptionPrice : Option ℚ
  ExpenseCategory : Option String
  ExpenseQty : Option ℚ
  ExpenseUnitPrice : Option ℚ
  ExpenseNotes : Option String
  History : List Message
deriving DecidableEq, Repr

/-- Embeds `ConversationState.Merge` from pkg/clients/anthropic/anthropic.go:
the receiver updated in place becomes a returned updated copy.  `Step` and
`History` are assigned unconditionally from `newState`; every field guarded by
an `if newState.F != nil` check keeps the receiver's value when the incoming
value is null; `Notes` is guarded by `newState.Notes != ""`.  The Go method
body contains no assignment to `SalesQty`. -/
def ConversationState.Merge (s newState : ConversationState) : ConversationState :=
  { s with
    Step := newState.Step
    History := newState.History
    EggsBand1 := if newState.EggsBand1.isSome then newState.EggsBand1 else s.EggsBand1
    EggsBand2 := if newState.EggsBand2.isSome then newState.EggsBand2 else s.EggsBand2
    EggsBand3 := if newState.EggsBand3.isSome then newState.EggsBand3 else s.EggsBand3
    MortalityBand1 := if newState.MortalityBand1.isSome then newState.MortalityBand1 else s.MortalityBand1
    MortalityBand2 := if newState.MortalityBand2.isSome then newState.MortalityBand2 else s.MortalityBand2
    MortalityBand3 := if newState.MortalityBand3.isSome then newState.MortalityBand3 else s.MortalityBand3
    FeedReceived := if newState.FeedReceived.isSome then newState.FeedReceived else s.FeedReceived
    FeedQty := if newState.FeedQty.isSome then newState.FeedQty else s.FeedQty
    Notes := if newState.Notes ≠ "" then newState.Notes else s.Notes
    SaleQty := if newState.SaleQty.isSome then newState.SaleQty else s.SaleQty
    SalePrice := if newState.SalePrice.isSome then newState.SalePrice else s.SalePrice
    SaleClient := if newState.SaleClient.isSome then newState.SaleClient else s.SaleClient
    SalePaid := if newState.SalePaid.isSome then newState.SalePaid else s.SalePaid
    ReceptionQty := if newState.ReceptionQty.isSome then newState.ReceptionQty else s.ReceptionQty
    ReceptionPrice := if newState.ReceptionPrice.isSome then newState.ReceptionPrice else s.ReceptionPrice
    ExpenseCategory := if newState.ExpenseCategory.isSome then newState.ExpenseCategory else s.ExpenseCategory
    ExpenseQty := if newState.ExpenseQty.isSome then newState.ExpenseQty else s.ExpenseQty
    ExpenseUnitPrice := if newState.ExpenseUnitPrice.isSome then newState.ExpenseUnitPrice else s.ExpenseUnitPrice
    ExpenseNotes := if newState.ExpenseNotes.isSome then newState.ExpenseNotes else s.ExpenseNotes }

/-- Zero value of `ConversationState`, as produced by Go's `ConversationState{}`:
empty step, all pointers nil, empty notes and history. -/
def zeroState : ConversationState :=
  { Step := ""
    EggsBand1 := none
    EggsBand2 := none
    EggsBand3 := none
    SalesQty := none
    MortalityBand1 := none
    MortalityBand2 := none
    MortalityBand3 := none
    FeedReceived := none
    FeedQty := none
    Notes := ""
    SaleQty := none
    SalePrice := none
    SaleClient := none
    SalePaid := none
    ReceptionQty := none
    ReceptionPrice := none
    ExpenseCategory := none
    ExpenseQty := none
    ExpenseUnitPrice := none
    ExpenseNotes := none
    History := [] }

/-- Incoming state for the C1 counterexample: identical to the zero state
except that `sales_qty` carries the non-null value 5. -/
def incomingSales : ConversationState := { zeroState with SalesQty := some 5 }

/-- Modelled from the spec: the revision of `anthropic.ConversationState` that
src/internal/service/whatsapp/service.go compiles against is not under src/
(src holds a later revision of anthropic.go); its fields are reconstructed from
their uses in `handleConversation` and `saveDailyReport` (egg bands, a single
mortality quantity with a band/reason string, feed flag and quantity, sales
quantity, notes, step, history). -/
structure ServiceState where
  Step : String
  EggsBand1 : Option Int
  EggsBand2 : Option Int
  EggsBand3 : Option Int
  SalesQty : Option Int
  MortalityQty : Option Int
  MortalityBand : String
  FeedReceived : Option Bool
  FeedQty : Option ℚ
  Notes : String
  History : List Message
deriving DecidableEq, Repr

/-- Embeds `models.EggRecord` from internal/domain/models/farm.go
(`Date`, filled from the clock, omitted). -/
structure EggRecord where
  Band1 : Int
  Band2 : Int
  Band3 : Int
  Quantity : Int
  Notes : String
deriving DecidableEq, Repr

/-- Embeds `models.MortalityRecord` from internal/domain/models/farm.go
(`Date` omitted). -/
structure MortalityRecord where
  Quantity : Int
  Reason : String
deriving DecidableEq, Repr

/-- Embeds `models.FeedRecord` from internal/domain/models/farm.go
(`Date` omitted). -/
structure FeedRecord where
  FeedKg : ℚ
  Population : Int
deriving DecidableEq, Repr

/-- Embeds `models.SaleRecord` from internal/domain/models/farm.go
(`Date` omitted). -/
structure SaleRecord where
  Client : String
  Quantity : Int
  PricePerUnit : ℚ
  Paid : ℚ
deriving DecidableEq, Repr

/-- Embeds `models.EggReceptionRecord` from internal/domain/models/farm.go
(`Date` omitted). -/
structure EggReceptionRecord where
  Quantity : Int
  UnitPrice : ℚ
deriving DecidableEq, Repr

/-- A record handed to one of the `commandsvc.Dispatcher` save methods by
`saveDailyReport`. -/
inductive FarmRecord where
  | egg : EggRecord → FarmRecord
  | mortality : MortalityRecord → FarmRecord
  | feed : FeedRecord → FarmRecord
deriving DecidableEq, Repr

/-- Oracle for the persistence collaborator `commandsvc.Dispatcher`: each save
method either succeeds (`true`) or returns an error (`false`) on a given
record. -/
structure Dispatcher where
  saveEggs : EggRecord → Bool
  saveMortality : MortalityRecord → Bool
  saveFeed : FeedRecord → Bool

/-- Two's-complement wrap of an unbounded integer into the signed 64-bit
range, modelling Go's `int` on a 64-bit platform. -/
def wrap64 (x : Int) : Int :=
  (x + 9223372036854775808) % 18446744073709551616 - 9223372036854775808

/-- Go `int` addition: 64-bit addition that wraps on overflow. -/
def int64add (x y : Int) : Int := wrap64 (x + y)

/-- Egg block of `saveDailyReport` (service.go): when at least one egg band is
non-nil, build an `EggRecord` with nil bands defaulted to 0 and `Quantity`
the Go-int sum `b1 + b2 + b3` (left-associated 64-bit wrapping additions),
and attempt the save.  Returns the records successfully saved and whether
the block succeeded. -/
def eggBlock (d : Dispatcher) (state : ServiceState) : List FarmRecord × Bool :=
  if state.EggsBand1.isSome || state.EggsBand2.isSome || state.EggsBand3.isSome then
    let b1 := state.EggsBand1.getD 0
    let b2 := state.EggsBand2.getD 0
    let b3 := state.EggsBand3.getD 0
    let r : EggRecord :=
      { Band1 := b1, Band2 := b2, Band3 := b3, Quantity := int64add (int64add b1 b2) b3,
        Notes := state.Notes }
    if d.saveEggs r then ([FarmRecord.egg r], true) else ([], false)
  else ([], true)

/-- Mortality block of `saveDailyReport` (service.go): when `MortalityQty` is
non-nil and non-negative, save a `MortalityRecord`; a zero quantity with an
empty or "0" band is normalized to the reason "RAS". -/
def mortalityBlock (d : Dispatcher) (state : ServiceState) : List FarmRecord × Bool :=
  match state.MortalityQty with
  | some qty =>
    if qty ≥ 0 then
      let reason :=
        if qty = 0 ∧ (state.MortalityBand = "" ∨ state.MortalityBand = "0") then "RAS"
        else state.MortalityBand
      let r : MortalityRecord := { Quantity := qty, Reason := reason }
      if d.saveMortality r then ([FarmRecord.mortality r], true) else ([], false)
    else ([], true)
  | none => ([], true)

/-- Feed block of `saveDailyReport` (service.go): when `FeedReceived` is
non-nil and true, save a `FeedRecord` with nil `FeedQty` defaulted to 0 and
`Population` 0. -/
def feedBlock (d : Dispatcher) (state : ServiceState) : List FarmRecord × Bool :=
  match state.FeedReceived with
  | some received =>
    if received then
      let r : FeedRecord := { FeedKg := state.FeedQty.getD 0, Population := 0 }
      if d.saveFeed r then ([FarmRecord.feed r], true) else ([], false)
    else ([], true)
  | none => ([], true)

/-- Embeds `saveDailyReport` from src/internal/service/whatsapp/service.go:
the egg, mortality and feed blocks are attempted in order; the first failing
save aborts the remaining blocks.  Returns the successfully saved records in
save order together with overall success.  (The farmer sales block is
commented out in the source and the `step` field is not consulted.) -/
def saveDailyReport (d : Dispatcher) (state : ServiceState) : List FarmRecord × Bool :=
  match eggBlock d state with
  | (recs1, false) => (recs1, false)
  | (recs1, true) =>
    match mortalityBlock d state with
    | (recs2, false) => (recs1 ++ recs2, false)
    | (recs2, true) =>
      match feedBlock d state with
      | (recs3, ok3) => (recs1 ++ recs2 ++ recs3, ok3)

/-- Fresh state returned by `SessionManager.GetSession` when the user has no
session: step COLLECTING, everything else at the Go zero value. -/
def defaultServiceState : ServiceState :=
  { Step := "COLLECTING"
    EggsBand1 := none
    EggsBand2 := none
    EggsBand3 := none
    SalesQty := none
    MortalityQty := none
    MortalityBand := ""
    FeedReceived := none
    FeedQty := none
    Notes := ""
    History := [] }

/-- Embeds `SessionManager.GetSession`: the stored entry when present,
otherwise the fresh default state. -/
def getSession (entry : Option ServiceState) : ServiceState :=
  entry.getD defaultServiceState

/-- Embeds the inline MERGE LOGIC safety net of `handleConversation`
(service.go): a field the AI dropped to nil while the current session had a
value is refilled from the current session; all other fields (notably `Step`,
`SalesQty` and `Notes`) come from the AI's state unchanged. -/
def safetyNetMerge (currentState newState : ServiceState) : ServiceState :=
  { newState with
    EggsBand1 :=
      if currentState.EggsBand1.isSome ∧ newState.EggsBand1 = none then currentState.EggsBand1
      else newState.EggsBand1
    EggsBand2 :=
      if currentState.EggsBand2.isSome ∧ newState.EggsBand2 = none then currentState.EggsBand2
      else newState.EggsBand2
    EggsBand3 :=
      if currentState.EggsBand3.isSome ∧ newState.EggsBand3 = none then currentState.EggsBand3
      else newState.EggsBand3
    MortalityQty :=
      if currentState.MortalityQty.isSome ∧ newState.MortalityQty = none then currentState.MortalityQty
      else newState.MortalityQty
    MortalityBand :=
      if currentState.MortalityBand ≠ "" ∧ newState.MortalityBand = "" then currentState.MortalityBand
      else newState.MortalityBand
    FeedReceived :=
      if currentState.FeedReceived.isSome ∧ newState.FeedReceived = none then currentState.FeedReceived
      else newState.FeedReceived
    FeedQty :=
      if currentState.FeedQty.isSome ∧ newState.FeedQty = none then currentState.FeedQty
      else newState.FeedQty }

/-- Fixed apology sent by `handleConversation` when `ProcessConversation`
returns an error. -/
def apologyReply : String := "Désolé, une erreur technique est survenue. Veuillez réessayer."

/-- Fixed reply sent by `handleConversation` when `saveDailyReport` fails. -/
def saveFailReply : String := "Merci, mais j'ai eu un problème pour sauvegarder les données. Veuillez contacter l'admin."

/-- Fixed confirmation sent by `handleConversation` after a successful
dispatch and session clear. -/
def savedReply : String := "✅ Rapport journalier enregistré avec succès ! À demain."

/-- Net effect of one `handleConversation` turn on the user's session entry:
the entry after the turn, the reply sent, and whether `ClearSession` ran. -/
structure TurnResult where
  entry : Option ServiceState
  reply : String
  cleared : Bool
deriving DecidableEq, Repr

/-- Embeds `handleConversation` from src/internal/service/whatsapp/service.go,
per turn for one user.  `entry` is the session-store entry for the user
(`none` when absent); `ai` is the outcome of the `ProcessConversation` call
(`Except.error` carries the Go error's message).  On AI error the apology is
sent and the session is untouched.  On success the safety-net merge runs, the
merged state is written via `UpdateSession`, and when its step is COMPLETED
the report is dispatched: on dispatch success the session is cleared, on
dispatch failure the written COMPLETED state stays in the store. -/
def handleConversation (d : Dispatcher) (entry : Option ServiceState)
    (ai : Except String (ServiceState × String)) : TurnResult :=
  match ai with
  | Except.error _ => { entry := entry, reply := apologyReply, cleared := false }
  | Except.ok (aiState, reply) =>
    let currentState := getSession entry
    let newState := safetyNetMerge currentState aiState
    if newState.Step = "COMPLETED" then
      if (saveDailyReport d newState).2 then
        { entry := none, reply := savedReply, cleared := true }
      else
        { entry := some newState, reply := saveFailReply, cleared := false }
    else
      { entry := some newState, reply := reply, cleared := false }

/-- Embeds Go's `strings.Index`: position of the first occurrence of `pat` in
`s`, or `none` for Go's -1. -/
def strIndex : List Char → List Char → Option Nat
  | s, pat =>
    match s with
    | [] => if pat = [] then some 0 else none
    | _ :: rest =>
      if List.isPrefixOf pat s then some 0
      else (strIndex rest pat).map (· + 1)

/-- Embeds Go's `strings.LastIndex`: position of the last occurrence of `pat`
in `s`, or `none` for Go's -1. -/
def strLastIndex (s pat : List Char) : Option Nat :=
  (((List.range (s.length + 1)).filter fun i => List.isPrefixOf pat (s.drop i))).getLast?

/-- Embeds `strings.ReplaceAll(content, "\n", "\\n")` for the single-character
pattern: every literal newline becomes the two-character escape sequence. -/
def replaceNewlines (s : List Char) : List Char :=
  s.flatMap fun c => if c = '\n' then ['\\', 'n'] else [c]

/-- Embeds `strings.ReplaceAll(escaped, "\r", "")` for the single-character
pattern: every literal carriage return is deleted. -/
def dropCRs (s : List Char) : List Char :=
  s.filter fun c => c ≠ '\r'

/-- The search key of `sanitizeJSON`: a double-quoted reply key. -/
def replyKey : List Char := "\"reply\"".data

/-- Embeds `sanitizeJSON` from pkg/clients/anthropic/anthropic.go: locate the
reply value span (first occurrence of the reply key, first colon from the key,
first quote from that colon, then the last quote strictly before the last
closing brace), escape newlines and delete carriage returns inside the span
only, and return the input unchanged whenever any lookup fails or the span is
empty or inverted. -/
def sanitizeJSON (input : List Char) : List Char :=
  match strIndex input replyKey with
  | none => input
  | some keyIdx =>
    match strIndex (input.drop keyIdx) [':'] with
    | none => input
    | some colonIdx =>
      match strIndex (input.drop (keyIdx + colonIdx)) ['"'] with
      | none => input
      | some valueStartRel =>
        let valueStartAbs := keyIdx + colonIdx + valueStartRel + 1
        match strLastIndex input ['}'] with
        | none => input
        | some lastBraceIdx =>
          match strLastIndex (input.take lastBraceIdx) ['"'] with
          | none => input
          | some valueEndAbs =>
            if valueEndAbs ≤ valueStartAbs then input
            else
              let content := (input.take valueEndAbs).drop valueStartAbs
              let escaped := dropCRs (replaceNewlines content)
              input.take valueStartAbs ++ escaped ++ input.drop valueEndAbs

/-- Reply value span located by the rule the spec states for the sanitation
pass: start is one past the first quote after the first colon after the reply
key, end is the last quote before the final closing brace; `none` when any
lookup fails or the span is empty or inverted. -/
def replySpan (input : List Char) : Option (Nat × Nat) :=
  match strIndex input replyKey with
  | none => none
  | some keyIdx =>
    match strIndex (input.drop keyIdx) [':'] with
    | none => none
    | some colonIdx =>
      match strIndex (input.drop (keyIdx + colonIdx)) ['"'] with
      | none => none
      | some valueStartRel =>
        let valueStartAbs := keyIdx + colonIdx + valueStartRel + 1
        match strLastIndex input ['}'] with
        | none => none
        | some lastBraceIdx =>
          match strLastIndex (input.take lastBraceIdx) ['"'] with
          | none => none
          | some valueEndAbs =>
            if valueEndAbs ≤ valueStartAbs then none
            else some (valueStartAbs, valueEndAbs)

/-- Parsed JSON value, as produced by the model of `encoding/json` parsing.
Number literals are kept as their source characters: none of the verified
properties depends on numeric decoding. -/
inductive Json where
  | null : Json
  | bool : Bool → Json
  | num : List Char → Json
  | str : List Char → Json
  | arr : List Json → Json
  | obj : List (List Char × Json) → Json

/-- Insignificant JSON whitespace, skipped between tokens. -/
def skipWs (s : List Char) : List Char :=
  s.dropWhile fun c => c = ' ' ∨ c = '\t' ∨ c = '\n' ∨ c = '\r'

/-- Hexadecimal digit test for string escapes. -/
def isHexDigit (c : Char) : Bool :=
  c.isDigit || ('a' ≤ c && c ≤ 'f') || ('A' ≤ c && c ≤ 'F')

/-- Value of a hexadecimal digit. -/
def hexVal (c : Char) : Nat :=
  if c.isDigit then c.toNat - '0'.toNat
  else if 'a' ≤ c && c ≤ 'f' then c.toNat - 'a'.toNat + 10
  else c.toNat - 'A'.toNat + 10

/-- Decoded character of a one-character string escape. -/
def escChar (e : Char) : Option Char :=
  if e = '"' then some '"'
  else if e = '\\' then some '\\'
  else if e = '/' then some '/'
  else if e = 'b' then some '\x08'
  else if e = 'f' then some '\x0c'
  else if e = 'n' then some '\n'
  else if e = 'r' then some '\r'
  else if e = 't' then some '\t'
  else none

/-- Body of a JSON string after its opening quote: returns the decoded
content and the remainder after the closing quote.  A literal control
character below 0x20 (in particular a raw newline or carriage return) is a
parse error, as in Go's `encoding/json`. -/
def parseStringBody : List Char → Option (List Char × List Char)
  | [] => none
  | c :: rest =>
    if c = '"' then some ([], rest)
    else if c = '\\' then
      match rest with
      | [] => none
      | e :: rest2 =>
        if e = 'u' then
          match rest2 with
          | h1 :: h2 :: h3 :: h4 :: rest3 =>
            if isHexDigit h1 && isHexDigit h2 && isHexDigit h3 && isHexDigit h4 then
              (parseStringBody rest3).map fun p =>
                (Char.ofNat (((hexVal h1 * 16 + hexVal h2) * 16 + hexVal h3) * 16 + hexVal h4) :: p.1, p.2)
            else none
          | _ => none
        else
          match escChar e with
          | none => none
          | some d => (parseStringBody rest2).map fun p => (d :: p.1, p.2)
    else if c.toNat < 32 then none
    else (parseStringBody rest).map fun p => (c :: p.1, p.2)

/-- Integer part of a JSON number: a single 0 or a nonzero digit followed by
digits. -/
def parseIntPart : List Char → Option (List Char × List Char)
  | [] => none
  | c :: rest =>
    if c = '0' then some ([c], rest)
    else if c.isDigit then some (c :: rest.takeWhile Char.isDigit, rest.dropWhile Char.isDigit)
    else none

/-- Optional fraction part of a JSON number. -/
def parseFracPart (s : List Char) : Option (List Char × List Char) :=
  match s with
  | '.' :: rest =>
    let ds := rest.takeWhile Char.isDigit
    if ds = [] then none else some ('.' :: ds, rest.dropWhile Char.isDigit)
  | _ => some ([], s)

/-- Optional exponent part of a JSON number. -/
def parseExpPart (s : List Char) : Option (List Char × List Char) :=
  match s with
  | e :: rest =>
    if e = 'e' ∨ e = 'E' then
      let signAndRest : List Char × List Char :=
        match rest with
        | c :: rest2 => if c = '+' ∨ c = '-' then ([c], rest2) else ([], rest)
        | [] => ([], rest)
      let ds := signAndRest.2.takeWhile Char.isDigit
      if ds = [] then none
      else some (e :: signAndRest.1 ++ ds, signAndRest.2.dropWhile Char.isDigit)
    else some ([], s)
  | [] => some ([], s)

/-- JSON number literal: optional minus, integer part, optional fraction and
exponent; returns the literal characters and the remainder. -/
def parseNumber (s : List Char) : Option (List Char × List Char) :=
  let negAndRest : List Char × List Char :=
    match s with
    | '-' :: rest => (['-'], rest)
    | _ => ([], s)
  match parseIntPart negAndRest.2 with
  | none => none
  | some (ip, s2) =>
    match parseFracPart s2 with
    | none => none
    | some (fp, s3) =>
      match parseExpPart s3 with
      | none => none
      | some (ep, s4) => some (negAndRest.1 ++ ip ++ fp ++ ep, s4)

mutual

/-- One JSON value with leading whitespace, by fuel-bounded recursive
descent. -/
def parseValue : Nat → List Char → Option (Json × List Char)
  | 0, _ => none
  | fuel + 1, s0 =>
    let s := skipWs s0
    match s with
    | [] => none
    | c :: rest =>
      if c = '"' then (parseStringBody rest).map fun p => (Json.str p.1, p.2)
      else if c = '\x7b' then
        match skipWs rest with
        | '\x7d' :: rest2 => some (Json.obj [], rest2)
        | rest1 => (parseMembers fuel rest1).map fun p => (Json.obj p.1, p.2)
      else if c = '[' then
        match skipWs rest with
        | ']' :: rest2 => some (Json.arr [], rest2)
        | rest1 => (parseElements fuel rest1).map fun p => (Json.arr p.1, p.2)
      else if List.isPrefixOf "true".data s then some (Json.bool true, s.drop 4)
      else if List.isPrefixOf "false".data s then some (Json.bool false, s.drop 5)
      else if List.isPrefixOf "null".data s then some (Json.null, s.drop 4)
      else (parseNumber s).map fun p => (Json.num p.1, p.2)

/-- Nonempty member list of a JSON object, up to and including the closing
brace. -/
def parseMembers : Nat → List Char → Option (List (List Char × Json) × List Char)
  | 0, _ => none
  | fuel + 1, s0 =>
    match skipWs s0 with
    | '"' :: rest =>
      match parseStringBody rest with
      | none => none
      | some (key, rest1) =>
        match skipWs rest1 with
        | ':' :: rest2 =>
          match parseValue fuel rest2 with
          | none => none
          | some (v, rest3) =>
            match skipWs rest3 with
            | ',' :: rest4 => (parseMembers fuel rest4).map fun p => ((key, v) :: p.1, p.2)
            | '\x7d' :: rest4 => some ([(key, v)], rest4)
            | _ => none
        | _ => none
    | _ => none

/-- Nonempty element list of a JSON array, up to and including the closing
bracket. -/
def parseElements : Nat → List Char → Option (List Json × List Char)
  | 0, _ => none
  | fuel + 1, s0 =>
    match parseValue fuel s0 with
    | none => none
    | some (v, rest) =>
      match skipWs rest with
      | ',' :: rest2 => (parseElements fuel rest2).map fun p => (v :: p.1, p.2)
      | ']' :: rest2 => some ([v], rest2)
      | _ => none

end

/-- Models the structural acceptance of Go's `json.Unmarshal`: exactly one
JSON value, with only whitespace after it. -/
def jsonParse (input : List Char) : Option Json :=
  match parseValue (input.length + 1) input with
  | none => none
  | some (v, rest) => if skipWs rest = [] then some v else none

/-- Object member lookup with Go's duplicate-key behavior: the last
occurrence wins. -/
def jsonLookup (fields : List (List Char × Json)) (key : List Char) : Option Json :=
  fields.foldl (fun acc kv => if kv.1 = key then some kv.2 else acc) none

/-- Models `json.Unmarshal` of the anonymous aiResult struct in
`ProcessConversation` (anthropic.go): the input must parse as one JSON
object; an absent reply member yields the string zero value, a non-string
reply member is a decoding error; the updated_state member must be an object
or null when present and is kept as parsed JSON (the properties below do not
need its field-level decoding).  The result pairs the updated_state JSON with
the decoded reply string. -/
def unmarshalAIResult (input : List Char) : Option (Json × List Char) :=
  match jsonParse input with
  | some (Json.obj fields) =>
    match jsonLookup fields "updated_state".data with
    | some (Json.obj stFields) =>
      match jsonLookup fields "reply".data with
      | none => some (Json.obj stFields, [])
      | some (Json.str r) => some (Json.obj stFields, r)
      | some _ => none
    | some Json.null =>
      match jsonLookup fields "reply".data with
      | none => some (Json.null, [])
      | some (Json.str r) => some (Json.null, r)
      | some _ => none
    | none =>
      match jsonLookup fields "reply".data with
      | none => some (Json.null, [])
      | some (Json.str r) => some (Json.null, r)
      | some _ => none
    | some _ => none
  | _ => none

/-- Embeds the parse step of `ProcessConversation` (anthropic.go): direct
unmarshal; on failure run `sanitizeJSON` and re-unmarshal only when the
sanitizer changed the text; `none` is the fallback path that returns the old
state, the fixed misunderstanding reply and a non-nil error. -/
def parseAIResponse (input : List Char) : Option (Json × List Char) :=
  match unmarshalAIResult input with
  | some r => some r
  | none =>
    let sanitized := sanitizeJSON input
    if sanitized = input then none
    else
      match unmarshalAIResult sanitized with
      | some r => some r
      | none => none

/-- A record dispatched for the seller role. -/
inductive SellerRecord where
  | sale : SaleRecord → SellerRecord
  | reception : EggReceptionRecord → SellerRecord
deriving DecidableEq, Repr

/-- Boolean test for a sale record. -/
def SellerRecord.isSale : SellerRecord → Bool
  | SellerRecord.sale _ => true
  | SellerRecord.reception _ => false

/-- Boolean test for a reception record. -/
def SellerRecord.isReception : SellerRecord → Bool
  | SellerRecord.sale _ => false
  | SellerRecord.reception _ => true

/-- Modelled from the spec: the seller-role branch of the record dispatch is
absent from src/internal/service/whatsapp/service.go (the revision under src
predates the seller role), so it is modelled from the spec's words for the
Record Dispatch Adapter: produce the subset of domain records implied by
populated fields — a sale record when any sale field is populated, a
reception record when any reception field is populated — and skip record
kinds with no populated fields (partial completeness is legal). -/
def sellerDispatchRecords (state : ConversationState) : List SellerRecord :=
  let saleRecs : List SellerRecord :=
    if state.SaleQty.isSome || state.SalePrice.isSome ||
        state.SaleClient.isSome || state.SalePaid.isSome then
      [SellerRecord.sale
        { Client := state.SaleClient.getD ""
          Quantity := state.SaleQty.getD 0
          PricePerUnit := state.SalePrice.getD 0
          Paid := state.SalePaid.getD 0 }]
    else []
  let receptionRecs : List SellerRecord :=
    if state.ReceptionQty.isSome || state.ReceptionPrice.isSome then
      [SellerRecord.reception
        { Quantity := state.ReceptionQty.getD 0
          UnitPrice := state.ReceptionPrice.getD 0 }]
    else []
  saleRecs ++ receptionRecs

/-- Extracts the egg record payload of a saved farm record, for counting. -/
def FarmRecord.eggData : FarmRecord → Option EggRecord
  | FarmRecord.egg r => some r
  | _ => none

/-- Dispatcher oracle whose every save fails. -/
def failingDispatcher : Dispatcher :=
  { saveEggs := fun _ => false, saveMortality := fun _ => false, saveFeed := fun _ => false }

/-- Dispatcher oracle whose every save succeeds. -/
def okDispatcher : Dispatcher :=
  { saveEggs := fun _ => true, saveMortality := fun _ => true, saveFeed := fun _ => true }

/-- A COMPLETED service-side state carrying one egg band, used by the
concrete turn scenarios. -/
def completedEggState : ServiceState :=
  { defaultServiceState with Step := "COMPLETED", EggsBand1 := some 1 }

/-- A COMPLETED state whose egg bands are each int64-representable but whose
band sum overflows int64, so the Go-int total wraps. -/
def overflowEggState : ServiceState :=
  { defaultServiceState with
    Step := "COMPLETED"
    EggsBand1 := some 9223372036854775807
    EggsBand2 := some 1 }

/-- A COMPLETED seller state with all four sale fields populated and both
reception fields null. -/
def sellerSaleOnlyState : ConversationState :=
  { zeroState with
    Step := "COMPLETED"
    SaleQty := some 10
    SalePrice := some 2500
    SaleClient := some "Client A"
    SalePaid := some 25000 }

/-- Raw extractor payload whose reply value contains a literal newline, so
that direct unmarshalling fails and only the sanitation pass can recover
it. -/
def rawNewlinePayload : List Char :=
  "\x7b\"updated_state\":\x7b\"step\":\"COLLECTING\"\x7d,\"reply\":\"Bonjour\nMerci\"\x7d".data

/-- Result of unmarshalling the sanitized form of `rawNewlinePayload`: the
updated_state object and the decoded reply. -/
def newlinePayloadResult : Json × List Char :=
  (Json.obj [("step".data, Json.str "COLLECTING".data)], "Bonjour\nMerci".data)

/-- C1 counterexample: with the zero state as `previous` and an incoming
state whose only non-null data field is `sales_qty = 5`, the merged state
does not hold incoming's `sales_qty`; the field stays null, refuting the
claim that every field other than step and history is taken from a non-null
incoming value. -/
theorem merge_drops_nonnull_salesqty :
    incomingSales.SalesQty.isSome = true ∧
      (ConversationState.Merge zeroState incomingSales).SalesQty ≠ incomingSales.SalesQty := by
  decide

/-- C1 (amended): `Merge` takes `step` and `history` verbatim from
`incoming`; every other field except `sales_qty` holds incoming's value when
that value is non-null (for `notes`, non-empty) and previous's value
otherwise; `sales_qty` is never written and always holds previous's value.
Stated for every pair of states, including a zero/default `previous`. -/
theorem merge_right_biased_fields (prev incoming : ConversationState) :
    (prev.Merge incoming).Step = incoming.Step ∧
    (prev.Merge incoming).History = incoming.History ∧
    (prev.Merge incoming).EggsBand1 =
      (if incoming.EggsBand1.isSome then incoming.EggsBand1 else prev.EggsBand1) ∧
    (prev.Merge incoming).EggsBand2 =
      (if incoming.EggsBand2.isSome then incoming.EggsBand2 else prev.EggsBand2) ∧
    (prev.Merge incoming).EggsBand3 =
      (if incoming.EggsBand3.isSome then incoming.EggsBand3 else prev.EggsBand3) ∧
    (prev.Merge incoming).MortalityBand1 =
      (if incoming.MortalityBand1.isSome then incoming.MortalityBand1 else prev.MortalityBand1) ∧
    (prev.Merge incoming).MortalityBand2 =
      (if incoming.MortalityBand2.isSome then incoming.MortalityBand2 else prev.MortalityBand2) ∧
    (prev.Merge incoming).MortalityBand3 =
      (if incoming.MortalityBand3.isSome then incoming.MortalityBand3 else prev.MortalityBand3) ∧
    (prev.Merge incoming).FeedReceived =
      (if incoming.FeedReceived.isSome then incoming.FeedReceived else prev.FeedReceived) ∧
    (prev.Merge incoming).FeedQty =
      (if incoming.FeedQty.isSome then incoming.FeedQty else prev.FeedQty) ∧
    (prev.Merge incoming).Notes =
      (if incoming.Notes ≠ "" then incoming.Notes else prev.Notes) ∧
    (prev.Merge incoming).SaleQty =
      (if incoming.SaleQty.isSome then incoming.SaleQty else prev.SaleQty) ∧
    (prev.Merge incoming).SalePrice =
      (if incoming.SalePrice.isSome then incoming.SalePrice else prev.SalePrice) ∧
    (prev.Merge incoming).SaleClient =
      (if incoming.SaleClient.isSome then incoming.SaleClient else prev.SaleClient) ∧
    (prev.Merge incoming).SalePaid =
      (if incoming.SalePaid.isSome then incoming.SalePaid else prev.SalePaid) ∧
    (prev.Merge incoming).ReceptionQty =
      (if incoming.ReceptionQty.isSome then incoming.ReceptionQty else prev.ReceptionQty) ∧
    (prev.Merge incoming).ReceptionPrice =
      (if incoming.ReceptionPrice.isSome then incoming.ReceptionPrice else prev.ReceptionPrice) ∧
    (prev.Merge incoming).ExpenseCategory =
      (if incoming.ExpenseCategory.isSome then incoming.ExpenseCategory else prev.ExpenseCategory) ∧
    (prev.Merge incoming).ExpenseQty =
      (if incoming.ExpenseQty.isSome then incoming.ExpenseQty else prev.ExpenseQty) ∧
    (prev.Merge incoming).ExpenseUnitPrice =
      (if incoming.ExpenseUnitPrice.isSome then incoming.ExpenseUnitPrice else prev.ExpenseUnitPrice) ∧
    (prev.Merge incoming).ExpenseNotes =
      (if incoming.ExpenseNotes.isSome then incoming.ExpenseNotes else prev.ExpenseNotes) ∧
    (prev.Merge incoming).SalesQty = prev.SalesQty :=
  ⟨rfl, rfl, rfl, rfl, rfl, rfl, rfl, rfl, rfl, rfl, rfl, rfl, rfl, rfl, rfl, rfl, rfl, rfl,
    rfl, rfl, rfl, rfl⟩

/-- C8: merging any state `A` with an incoming state that carries `A`'s step
and history but has every data field null (and empty notes) returns `A`
unchanged. -/
theorem merge_null_incoming_identity (A : ConversationState) :
    A.Merge
      { Step := A.Step
        EggsBand1 := none
        EggsBand2 := none
        EggsBand3 := none
        SalesQty := none
        MortalityBand1 := none
        MortalityBand2 := none
        MortalityBand3 := none
        FeedReceived := none
        FeedQty := none
        Notes := ""
        SaleQty := none
        SalePrice := none
        SaleClient := none
        SalePaid := none
        ReceptionQty := none
        ReceptionPrice := none
        ExpenseCategory := none
        ExpenseQty := none
        ExpenseUnitPrice := none
        ExpenseNotes := none
        History := A.History } = A :=
  rfl

/-- C10: `Merge` never writes the `sales_qty` field; the receiver's value
survives any incoming state, non-null incoming `sales_qty` included. -/
theorem merge_never_writes_salesqty (s n : ConversationState) :
    (s.Merge n).SalesQty = s.SalesQty :=
  rfl

/-- C4: when the extractor call errors (any error message, the
sanitation-also-failed case included), the turn sends exactly the fixed
apology, leaves the session entry at its pre-turn value, performs no clear,
and its outcome does not depend on the extraction error at all — so no
extraction error reaches the transport layer. -/
theorem extractor_error_apology_and_frame (d : Dispatcher) (entry : Option ServiceState)
    (e : String) :
    handleConversation d entry (Except.error e) =
      { entry := entry, reply := apologyReply, cleared := false } :=
  rfl

/-- C2: a seller-role COMPLETED state with all four sale fields populated and
both reception fields null dispatches exactly one sale record and zero
reception records. -/
theorem seller_sale_only_dispatch (state : ConversationState)
    (hstep : state.Step = "COMPLETED")
    (hq : state.SaleQty.isSome = true) (hp : state.SalePrice.isSome = true)
    (hc : state.SaleClient.isSome = true) (hpaid : state.SalePaid.isSome = true)
    (hr1 : state.ReceptionQty = none) (hr2 : state.ReceptionPrice = none) :
    (sellerDispatchRecords state).countP SellerRecord.isSale = 1 ∧
      (sellerDispatchRecords state).countP SellerRecord.isReception = 0 := by
  unfold sellerDispatchRecords
  simp [hq, hr1, hr2, SellerRecord.isSale, SellerRecord.isReception]

/-- Witness for C2 at a concrete sale-only seller state. -/
theorem seller_sale_only_dispatch_witness :
    (sellerDispatchRecords sellerSaleOnlyState).countP SellerRecord.isSale = 1 ∧
      (sellerDispatchRecords sellerSaleOnlyState).countP SellerRecord.isReception = 0 :=
  seller_sale_only_dispatch sellerSaleOnlyState (by decide) (by decide) (by decide) (by decide)
    (by decide) (by decide) (by decide)

/-- Helper: the mortality block saves either nothing or one mortality
record. -/
theorem mortalityBlock_shape (d : Dispatcher) (st : ServiceState) :
    (mortalityBlock d st).1 = [] ∨
      ∃ r, (mortalityBlock d st).1 = [FarmRecord.mortality r] := by
  unfold mortalityBlock
  rcases st.MortalityQty with _ | q
  · left; rfl
  · dsimp only
    split
    · split
      · split
        · right; exact ⟨_, rfl⟩
        · left; rfl
      · split
        · right; exact ⟨_, rfl⟩
        · left; rfl
    · left; rfl

/-- Helper: the mortality block never saves an egg record. -/
theorem mortalityBlock_no_egg (d : Dispatcher) (st : ServiceState) :
    (mortalityBlock d st).1.filterMap FarmRecord.eggData = [] := by
  rcases mortalityBlock_shape d st with h | ⟨r, h⟩ <;> simp [h, FarmRecord.eggData]

/-- Helper: the feed block saves either nothing or one feed record. -/
theorem feedBlock_shape (d : Dispatcher) (st : ServiceState) :
    (feedBlock d st).1 = [] ∨ ∃ r, (feedBlock d st).1 = [FarmRecord.feed r] := by
  unfold feedBlock
  rcases st.FeedReceived with _ | b
  · left; rfl
  · dsimp only
    split
    · split
      · right; exact ⟨_, rfl⟩
      · left; rfl
    · left; rfl

/-- Helper: the feed block never saves an egg record. -/
theorem feedBlock_no_egg (d : Dispatcher) (st : ServiceState) :
    (feedBlock d st).1.filterMap FarmRecord.eggData = [] := by
  rcases feedBlock_shape d st with h | ⟨r, h⟩ <;> simp [h, FarmRecord.eggData]

/-- Helper: Go's left-associated `b1 + b2 + b3` over 64-bit ints equals the
single wrap of the unbounded three-way sum. -/
theorem int64add_left_assoc (a b c : Int) :
    int64add (int64add a b) c = wrap64 (a + b + c) := by
  unfold int64add wrap64
  omega

/-- Helper: the 64-bit wrap is the identity on values already in the signed
64-bit range. -/
theorem wrap64_eq_self (x : Int) (h1 : -9223372036854775808 ≤ x)
    (h2 : x < 9223372036854775808) : wrap64 x = x := by
  unfold wrap64
  omega

/-- Helper: with at least one egg band non-null and a succeeding egg save,
the egg block saves exactly the record with defaulted bands and their
wrapped Go-int sum. -/
theorem eggBlock_saved (d : Dispatcher) (st : ServiceState)
    (hcond : (st.EggsBand1.isSome || st.EggsBand2.isSome || st.EggsBand3.isSome) = true)
    (hsave : ∀ r, d.saveEggs r = true) :
    eggBlock d st =
      ([FarmRecord.egg
          { Band1 := st.EggsBand1.getD 0, Band2 := st.EggsBand2.getD 0,
            Band3 := st.EggsBand3.getD 0,
            Quantity := wrap64 (st.EggsBand1.getD 0 + st.EggsBand2.getD 0 + st.EggsBand3.getD 0),
            Notes := st.Notes }], true) := by
  unfold eggBlock
  simp [hcond, hsave, int64add_left_assoc]

/-- C9 counterexample: at a COMPLETED state whose bands are the
int64-representable values 9223372036854775807, 1 and null, the program's
saved egg record carries the wrapped Go-int total -9223372036854775808,
which is not the mathematical sum of the band values, refuting the claim
that `Quantity` equals the sum of the three band values for every such
state. -/
theorem egg_quantity_wraps_at_overflow :
    (saveDailyReport okDispatcher overflowEggState).1.filterMap FarmRecord.eggData =
      [{ Band1 := 9223372036854775807, Band2 := 1, Band3 := 0,
         Quantity := -9223372036854775808, Notes := "" }] ∧
      (-9223372036854775808 : Int) ≠ 9223372036854775807 + 1 + 0 := by
  constructor
  · decide
  · decide

/-- C9 (amended): for a COMPLETED state with at least one egg band non-null,
and a persistence layer whose egg save succeeds, `saveDailyReport` saves
exactly one egg record; its `Band` fields carry the band values with null as
0 and its `Quantity` is the two's-complement 64-bit wrap of the sum of the
three — equal to the mathematical sum whenever that sum lies in the signed
64-bit range. -/
theorem egg_record_wrapped_sum (d : Dispatcher) (st : ServiceState)
    (hstep : st.Step = "COMPLETED")
    (hcond : (st.EggsBand1.isSome || st.EggsBand2.isSome || st.EggsBand3.isSome) = true)
    (hsave : ∀ r, d.saveEggs r = true) :
    (saveDailyReport d st).1.filterMap FarmRecord.eggData =
      [{ Band1 := st.EggsBand1.getD 0, Band2 := st.EggsBand2.getD 0, Band3 := st.EggsBand3.getD 0,
         Quantity := wrap64 (st.EggsBand1.getD 0 + st.EggsBand2.getD 0 + st.EggsBand3.getD 0),
         Notes := st.Notes }] ∧
      (-9223372036854775808 ≤ st.EggsBand1.getD 0 + st.EggsBand2.getD 0 + st.EggsBand3.getD 0 →
        st.EggsBand1.getD 0 + st.EggsBand2.getD 0 + st.EggsBand3.getD 0 < 9223372036854775808 →
        wrap64 (st.EggsBand1.getD 0 + st.EggsBand2.getD 0 + st.EggsBand3.getD 0) =
          st.EggsBand1.getD 0 + st.EggsBand2.getD 0 + st.EggsBand3.getD 0) := by
  refine ⟨?_, fun h1 h2 => wrap64_eq_self _ h1 h2⟩
  have he := eggBlock_saved d st hcond hsave
  have hm2 := mortalityBlock_no_egg d st
  have hf2 := feedBlock_no_egg d st
  unfold saveDailyReport
  rw [he]
  rcases hm : mortalityBlock d st with ⟨recs2, ok2⟩
  rw [hm] at hm2
  simp only at hm2
  cases ok2
  · simp [List.filterMap_append, hm2, FarmRecord.eggData]
  · rcases hf : feedBlock d st with ⟨recs3, ok3⟩
    rw [hf] at hf2
    simp only at hf2
    simp [List.filterMap_append, hm2, hf2, FarmRecord.eggData]

/-- Witness for the amended C9 at a concrete one-band COMPLETED state whose
sum is in range. -/
theorem egg_record_wrapped_sum_witness :
    (saveDailyReport okDispatcher completedEggState).1.filterMap FarmRecord.eggData =
      [{ Band1 := 1, Band2 := 0, Band3 := 0, Quantity := 1, Notes := "" }] ∧
      wrap64 1 = 1 := by
  have h := egg_record_wrapped_sum okDispatcher completedEggState (by decide) (by decide)
    (fun r => rfl)
  constructor
  · have h1 := h.1
    simpa [completedEggState, defaultServiceState, wrap64] using h1
  · exact h.2 (by decide) (by decide)

/-- C3 counterexample: a turn whose extractor output is COMPLETED but whose
dispatch fails ends with the session store still holding a COMPLETED state
for the user, so COMPLETED does persist across turns on this path. -/
theorem completed_state_persists_after_failed_dispatch :
    Option.map ServiceState.Step
        (handleConversation failingDispatcher none
          (Except.ok (completedEggState, "ok"))).entry = some "COMPLETED" := by
  decide

/-- C3 (amended): at the end of a turn the store holds a COMPLETED state for
the user exactly when the extractor succeeded, the merged step was COMPLETED
and the dispatch failed (the state is kept for retry), or the extractor
errored while the pre-turn entry was already COMPLETED; after a successful
dispatch, or on any COLLECTING outcome, no COMPLETED state remains. -/
theorem completed_in_store_iff (d : Dispatcher) (entry : Option ServiceState)
    (ai : Except String (ServiceState × String)) :
    (∃ st, (handleConversation d entry ai).entry = some st ∧ st.Step = "COMPLETED") ↔
      ((∃ stR r, ai = Except.ok (stR, r) ∧
          (safetyNetMerge (getSession entry) stR).Step = "COMPLETED" ∧
          (saveDailyReport d (safetyNetMerge (getSession entry) stR)).2 = false) ∨
        ((∃ e, ai = Except.error e) ∧
          ∃ st0, entry = some st0 ∧ st0.Step = "COMPLETED")) := by
  cases ai with
  | error e => simp [handleConversation]
  | ok p =>
    rcases p with ⟨stR, r⟩
    simp only [handleConversation]
    by_cases hc : (safetyNetMerge (getSession entry) stR).Step = "COMPLETED"
    · cases hs : (saveDailyReport d (safetyNetMerge (getSession entry) stR)).2
      · simp [hc, hs]
      · simp [hc, hs]
    · simp [hc]

/-- Witness for the amended C3 at a concrete failed-dispatch turn. -/
theorem completed_in_store_iff_witness :
    ∃ st, (handleConversation failingDispatcher none
        (Except.ok (completedEggState, "ok"))).entry = some st ∧ st.Step = "COMPLETED" :=
  (completed_in_store_iff failingDispatcher none (Except.ok (completedEggState, "ok"))).mpr
    (Or.inl ⟨completedEggState, "ok", rfl, by decide, by decide⟩)

/-- C5: `ClearSession` runs during a turn exactly when the extractor
succeeded, the merged step is COMPLETED and the dispatch succeeded; and
whenever it runs, the entry afterwards is absent, so `GetSession` returns
the fresh default state (COLLECTING, all fields null).  Every other path
(extractor error, COLLECTING outcome, failed dispatch) keeps the session. -/
theorem clear_iff_successful_dispatch (d : Dispatcher) (entry : Option ServiceState)
    (ai : Except String (ServiceState × String)) :
    ((handleConversation d entry ai).cleared = true ↔
      ∃ stR r, ai = Except.ok (stR, r) ∧
        (safetyNetMerge (getSession entry) stR).Step = "COMPLETED" ∧
        (saveDailyReport d (safetyNetMerge (getSession entry) stR)).2 = true) ∧
    ((handleConversation d entry ai).cleared = true →
      (handleConversation d entry ai).entry = none ∧
      getSession (handleConversation d entry ai).entry = defaultServiceState) := by
  cases ai with
  | error e => simp [handleConversation]
  | ok p =>
    rcases p with ⟨stR, r⟩
    simp only [handleConversation]
    by_cases hc : (safetyNetMerge (getSession entry) stR).Step = "COMPLETED"
    · cases hs : (saveDailyReport d (safetyNetMerge (getSession entry) stR)).2
      · simp [hc, hs]
      · simp [hc, hs]
        simp [getSession]
    · simp [hc]

/-- Witness for C5 at a concrete successful-dispatch turn. -/
theorem clear_iff_successful_dispatch_witness :
    (handleConversation okDispatcher none (Except.ok (completedEggState, "ok"))).cleared = true ∧
      getSession (handleConversation okDispatcher none
        (Except.ok (completedEggState, "ok"))).entry = defaultServiceState := by
  have h := clear_iff_successful_dispatch okDispatcher none (Except.ok (completedEggState, "ok"))
  have hcl := h.1.mpr ⟨completedEggState, "ok", rfl, by decide, by decide⟩
  exact ⟨hcl, (h.2 hcl).2⟩

/-- Helper: `sanitizeJSON` rewritten through the located reply span — the
input is returned unchanged when no span is found, and otherwise only the
span content is transformed. -/
theorem sanitizeJSON_span_eq (input : List Char) :
    sanitizeJSON input =
      match replySpan input with
      | none => input
      | some (s, e) =>
        input.take s ++ dropCRs (replaceNewlines ((input.take e).drop s)) ++ input.drop e := by
  unfold sanitizeJSON replySpan
  rcases h1 : strIndex input replyKey with _ | keyIdx <;> simp only [h1]
  rcases h2 : strIndex (input.drop keyIdx) [':'] with _ | colonIdx <;> simp only [h2]
  rcases h3 : strIndex (input.drop (keyIdx + colonIdx)) ['"'] with _ | valueStartRel <;>
    simp only [h3]
  rcases h4 : strLastIndex input ['\x7d'] with _ | lastBraceIdx <;> simp only [h4]
  rcases h5 : strLastIndex (input.take lastBraceIdx) ['"'] with _ | valueEndAbs <;> simp only [h5]
  by_cases h6 : valueEndAbs ≤ keyIdx + colonIdx + valueStartRel + 1 <;> simp [h6]

/-- C7 counterexample: on a payload whose reply value holds a literal
carriage return, `sanitizeJSON` deletes the character instead of escaping
it — the output is not the escaped-carriage-return text the claim
prescribes. -/
theorem sanitize_removes_carriage_return :
    sanitizeJSON "\x7b\"reply\":\"a\rb\"\x7d".data = "\x7b\"reply\":\"ab\"\x7d".data ∧
      sanitizeJSON "\x7b\"reply\":\"a\rb\"\x7d".data ≠ "\x7b\"reply\":\"a\\rb\"\x7d".data := by
  decide

/-- C7 (amended): for every input, when the reply value span is located
(reply key, first quote after its colon, last quote before the final closing
brace), `sanitizeJSON` escapes literal newlines and deletes carriage returns
within that span only and returns every character outside the span
unchanged; when no span can be located the input is returned unchanged. -/
theorem sanitize_span_behavior (input : List Char) :
    (replySpan input = none ∧ sanitizeJSON input = input) ∨
      ∃ s e, replySpan input = some (s, e) ∧
        sanitizeJSON input =
          input.take s ++ dropCRs (replaceNewlines ((input.take e).drop s)) ++ input.drop e := by
  have h := sanitizeJSON_span_eq input
  rcases hsp : replySpan input with _ | ⟨s, e⟩
  · rw [hsp] at h; exact Or.inl ⟨rfl, h⟩
  · rw [hsp] at h; exact Or.inr ⟨s, e, rfl, h⟩

/-- Helper: escaping a span that holds a literal newline leaves the
two-character escape sequence somewhere in the transformed span. -/
theorem escape_infix_of_newline (content : List Char) (h : '\n' ∈ content) :
    List.IsInfix ['\\', 'n'] (dropCRs (replaceNewlines content)) := by
  induction content with
  | nil => cases h
  | cons c tl ih =>
    rcases List.mem_cons.mp h with hc | htl
    · have heq : dropCRs (replaceNewlines (c :: tl)) =
          '\\' :: 'n' :: dropCRs (replaceNewlines tl) := by
        rw [← hc]
        simp [replaceNewlines, dropCRs]
      rw [heq]
      exact ⟨[], dropCRs (replaceNewlines tl), rfl⟩
    · have hinf := ih htl
      have heq : dropCRs (replaceNewlines (c :: tl)) =
          dropCRs (if c = '\n' then ['\\', 'n'] else [c]) ++ dropCRs (replaceNewlines tl) := by
        simp [replaceNewlines, dropCRs, List.filter_append]
      rw [heq]
      rcases hinf with ⟨u, v, huv⟩
      exact ⟨dropCRs (if c = '\n' then ['\\', 'n'] else [c]) ++ u, v, by
        rw [← huv]; simp [List.append_assoc]⟩

/-- C6: a raw extractor payload that fails direct unmarshalling, whose
located reply span contains a literal newline, and whose sanitized form
unmarshals (so the failure was due only to the newline defect the sanitizer
repairs), is accepted by the combined parse step of `ProcessConversation`
with the sanitized result — no structural parse error is signalled — and the
sanitized text carries the escaped newline sequence inside the rewritten
reply span, every character outside the span unchanged. -/
theorem parse_recovers_newline_reply (input : List Char) (s e : Nat) (res : Json × List Char)
    (hfail : unmarshalAIResult input = none)
    (hspan : replySpan input = some (s, e))
    (hnl : '\n' ∈ (input.take e).drop s)
    (hok : unmarshalAIResult (sanitizeJSON input) = some res) :
    parseAIResponse input = some res ∧
      sanitizeJSON input =
        input.take s ++ dropCRs (replaceNewlines ((input.take e).drop s)) ++ input.drop e ∧
      List.IsInfix ['\\', 'n'] (dropCRs (replaceNewlines ((input.take e).drop s))) := by
  have hchar := sanitizeJSON_span_eq input
  rw [hspan] at hchar
  have hne : sanitizeJSON input ≠ input := by
    intro heqq
    rw [heqq, hfail] at hok
    cases hok
  refine ⟨?_, hchar, escape_infix_of_newline _ hnl⟩
  unfold parseAIResponse
  simp only [hfail]
  rw [if_neg hne, hok]

/-- Witness for C6 at a concrete multi-line-reply payload. -/
theorem parse_recovers_newline_reply_witness :
    parseAIResponse rawNewlinePayload = some newlinePayloadResult ∧
      sanitizeJSON rawNewlinePayload =
        rawNewlinePayload.take 48 ++
          dropCRs (replaceNewlines ((rawNewlinePayload.take 61).drop 48)) ++
          rawNewlinePayload.drop 61 ∧
      List.IsInfix ['\\', 'n'] (dropCRs (replaceNewlines ((rawNewlinePayload.take 61).drop 48))) :=
  parse_recovers_newline_reply rawNewlinePayload 48 61 newlinePayloadResult rfl (by decide)
    (by decide) rfl

end Farmer
